import Mathlib

/-!
Verification of the peasauce loader framework and address-space model.

This file gives a shallow embedding, in Lean, of the binary-format ingestion
core of the peasauce interactive disassembler (`python/loaderlib/__init__.py`,
`python/loaderlib/constants.py`, `python/loaderlib/binary/__init__.py`,
`python/loaderlib/amiga/__init__.py`, `python/disassembly_data.py`), and proves
or refutes the behavioural properties stated in the specification.

Modelling conventions:
* Python byte buffers become `List Nat` (each entry one byte value).
* Python exceptions become an explicit `PyError` channel via `Except`; a Python
  function that can either return `None` or a value yields `Option Nat`.
* Python `int` values held in fields that the code only ever uses as
  non-negative become `Nat`; the `-1` sentinel used for `Segment.file_offset`
  keeps `Int`.
* Mutation of objects becomes explicit state passing; the module-global
  `SegmentBlock.last_sequence_id` counter becomes an explicit counter argument.
-/

/-- Python exception outcomes that the modelled code can raise. -/
inductive PyError where
  | structError
  | indexError
  | typeError
  | valueError
  | exception
  deriving DecidableEq, Repr

/-- Endianness enumeration from `loaderlib/constants.py` (`class Endian`). -/
inductive Endian where
  | UNKNOWN
  | BIG
  | LITTLE
  deriving DecidableEq, Repr

/-- Match confidence constant `MATCH_NONE` from `loaderlib/constants.py`. -/
def MATCH_NONE : Nat := 0
/-- Match confidence constant `MATCH_POSSIBLE` from `loaderlib/constants.py`. -/
def MATCH_POSSIBLE : Nat := 1
/-- Match confidence constant `MATCH_PROBABLE` from `loaderlib/constants.py`. -/
def MATCH_PROBABLE : Nat := 2
/-- Match confidence constant `MATCH_CERTAIN` from `loaderlib/constants.py`. -/
def MATCH_CERTAIN : Nat := 3

/-- Platform constant from `loaderlib/constants.py`. -/
def PLATFORM_UNKNOWN : Nat := 0
/-- Platform constant from `loaderlib/constants.py`. -/
def PLATFORM_AMIGA : Nat := 1000
/-- Platform constant from `loaderlib/constants.py`. -/
def PLATFORM_ATARIST : Nat := 2000
/-- Platform constant from `loaderlib/constants.py`. -/
def PLATFORM_SNES : Nat := 6000
/-- Platform constant from `loaderlib/constants.py`. -/
def PLATFORM_X68000 : Nat := 7000
/-- Platform constant from `loaderlib/constants.py`. -/
def PLATFORM_ZXSPECTRUM : Nat := 8000

/-- File format enumeration value `FileFormat.UNKNOWN` (`loaderlib/constants.py`). -/
def FILE_FORMAT_UNKNOWN : Nat := 0
/-- File format enumeration value `FileFormat.AMIGA_HUNK_EXECUTABLE`. -/
def FILE_FORMAT_AMIGA_HUNK_EXECUTABLE : Nat := PLATFORM_AMIGA + 1
/-- File format enumeration value `FileFormat.AMIGA_HUNK_LIBRARY`. -/
def FILE_FORMAT_AMIGA_HUNK_LIBRARY : Nat := PLATFORM_AMIGA + 2
/-- File format enumeration value `FileFormat.X68000_X_EXECUTABLE`. -/
def FILE_FORMAT_X68000_X_EXECUTABLE : Nat := PLATFORM_X68000 + 1

/-- Processor enumeration value `Processor.UNKNOWN` (`loaderlib/constants.py`). -/
def PROCESSOR_UNKNOWN : Nat := 0
/-- Processor enumeration value `Processor.M680x0`. -/
def PROCESSOR_M680x0 : Nat := 100
/-- Processor enumeration value `Processor.M68000`. -/
def PROCESSOR_M68000 : Nat := 101

/-- Data type tag `DATA_TYPE_CODE` from `loaderlib/constants.py`. -/
def DATA_TYPE_CODE : Nat := 1
/-- Data type tag `DATA_TYPE_ASCII` from `loaderlib/constants.py`. -/
def DATA_TYPE_ASCII : Nat := 2
/-- Data type tag `DATA_TYPE_DATA08` from `loaderlib/constants.py`. -/
def DATA_TYPE_DATA08 : Nat := 3
/-- Data type tag `DATA_TYPE_DATA16` from `loaderlib/constants.py`. -/
def DATA_TYPE_DATA16 : Nat := 4
/-- Data type tag `DATA_TYPE_DATA32` from `loaderlib/constants.py`. -/
def DATA_TYPE_DATA32 : Nat := 5

/-- Python slice `l[a:b]` on a byte buffer, for non-negative bounds: clamps
rather than faulting. -/
def pySlice (l : List Nat) (a b : Nat) : List Nat :=
  (l.drop a).take (b - a)

/-- Big-endian byte composition used by `struct.unpack` with format `>H`. -/
def beWord (b0 b1 : Nat) : Nat := b0 * 256 + b1

/-- Big-endian byte composition used by `struct.unpack` with format `>I`. -/
def beLong (b0 b1 b2 b3 : Nat) : Nat := ((b0 * 256 + b1) * 256 + b2) * 256 + b3

/-- Model of `struct.unpack` with formats `>H` / `<H`: demands exactly two
bytes, raising `struct.error` otherwise. -/
def structUnpack16 (bigEndian : Bool) (s : List Nat) : Except PyError Nat :=
  match s with
  | [b0, b1] => .ok (if bigEndian then beWord b0 b1 else beWord b1 b0)
  | _ => .error .structError

/-- Model of `struct.unpack` with formats `>I` / `<I`: demands exactly four
bytes, raising `struct.error` otherwise. -/
def structUnpack32 (bigEndian : Bool) (s : List Nat) : Except PyError Nat :=
  match s with
  | [b0, b1, b2, b3] => .ok (if bigEndian then beLong b0 b1 b2 b3 else beLong b3 b2 b1 b0)
  | _ => .error .structError

/-- Model of `struct.pack` with formats `>I` / `<I`: encodes a value below
`2 ^ 32` as four bytes, raising `struct.error` for anything larger. -/
def structPack32 (bigEndian : Bool) (v : Nat) : Except PyError (List Nat) :=
  if v < 2 ^ 32 then
    .ok (if bigEndian then
      [v / 2 ^ 24 % 256, v / 2 ^ 16 % 256, v / 2 ^ 8 % 256, v % 256]
    else
      [v % 256, v / 2 ^ 8 % 256, v / 2 ^ 16 % 256, v / 2 ^ 24 % 256])
  else
    .error .structError

/-- The sized-value codec: `class DataTypes` of `loaderlib/__init__.py`, whose
construction records the endianness the codec was built with. -/
structure DataTypes where
  endian_id : Endian
  deriving DecidableEq, Repr

/-- The `_endian_char` field computed by `DataTypes.__init__`:
`[ "<", ">" ][endian_id == Endian.BIG]`. -/
def DataTypes.endian_char (dt : DataTypes) : String :=
  if dt.endian_id = Endian.BIG then ">" else "<"

/-- `DataTypes.uint16`: dispatches on `endian_id == Endian.BIG`, any other
endianness (including `Endian.UNKNOWN`) taking the little-endian branch. -/
def DataTypes.uint16 (dt : DataTypes) (s : List Nat) : Except PyError Nat :=
  if dt.endian_id = Endian.BIG then structUnpack16 true s else structUnpack16 false s

/-- `DataTypes.int16`: signed decode; `struct.unpack` with `>h` / `<h` reads
the same bytes as `>H` / `<H` and reinterprets them in two's complement. -/
def DataTypes.int16 (dt : DataTypes) (s : List Nat) : Except PyError Int :=
  match dt.uint16 s with
  | .ok u => .ok (if u < 2 ^ 15 then (u : Int) else (u : Int) - 2 ^ 16)
  | .error e => .error e

/-- `DataTypes.uint32`: dispatches on `endian_id == Endian.BIG`, any other
endianness (including `Endian.UNKNOWN`) taking the little-endian branch. -/
def DataTypes.uint32 (dt : DataTypes) (s : List Nat) : Except PyError Nat :=
  if dt.endian_id = Endian.BIG then structUnpack32 true s else structUnpack32 false s

/-- `DataTypes.int32`: signed decode; `struct.unpack` with `>i` / `<i` reads
the same bytes as `>I` / `<I` and reinterprets them in two's complement. -/
def DataTypes.int32 (dt : DataTypes) (s : List Nat) : Except PyError Int :=
  match dt.uint32 s with
  | .ok u => .ok (if u < 2 ^ 31 then (u : Int) else (u : Int) - 2 ^ 32)
  | .error e => .error e

/-- `DataTypes.uint8`: a one-byte `struct.unpack` (`>B` / `<B`), identical for
both endiannesses. -/
def DataTypes.uint8 (dt : DataTypes) (s : List Nat) : Except PyError Nat :=
  match s with
  | [b0] => .ok b0
  | _ => .error .structError

/-- `DataTypes.uint32_value_as_string`: encodes via `struct.pack`,
big-endian exactly when `endian_id == Endian.BIG`. -/
def DataTypes.uint32_value_as_string (dt : DataTypes) (v : Nat) : Except PyError (List Nat) :=
  if dt.endian_id = Endian.BIG then structPack32 true v else structPack32 false v

/-- `DataTypes.uint8_value`: under Python 3 the constructor selects
`_uint8_value3`, which is a plain subscript `bytes[idx]` and raises
`IndexError` out of range. -/
def DataTypes.uint8_value (dt : DataTypes) (bytes : List Nat) (idx : Nat) : Except PyError Nat :=
  match bytes[idx]? with
  | some b => .ok b
  | none => .error .indexError

/-- `DataTypes.uint16_value`: slices two bytes and decodes them; a short slice
propagates the `struct.error` raised by `uint16` (there is no handler). -/
def DataTypes.uint16_value (dt : DataTypes) (bytes : List Nat) (idx : Nat) : Except PyError Nat :=
  dt.uint16 (pySlice bytes idx (idx + 2))

/-- `DataTypes.uint32_value`: slices four bytes and decodes them inside a bare
`try`/`except` that swallows every exception and returns `None` instead. -/
def DataTypes.uint32_value (dt : DataTypes) (bytes : List Nat) (idx : Nat) : Except PyError (Option Nat) :=
  match dt.uint32 (pySlice bytes idx (idx + 4)) with
  | .ok v => .ok (some v)
  | .error _ => .ok none

/-- `DataTypes.sized_value`: dispatches on the data-type tag, raising a plain
`Exception` for an unsupported tag.  The 32-bit path can return `None`
(`.ok none`); the 16- and 8-bit paths return a value or raise. -/
def DataTypes.sized_value (dt : DataTypes) (data_size : Nat) (bytes : List Nat) (idx : Nat) :
    Except PyError (Option Nat) :=
  if data_size = DATA_TYPE_DATA32 then
    dt.uint32_value bytes idx
  else if data_size = DATA_TYPE_DATA16 then
    match dt.uint16_value bytes idx with
    | .ok v => .ok (some v)
    | .error e => .error e
  else if data_size = DATA_TYPE_DATA08 then
    match dt.uint8_value bytes idx with
    | .ok v => .ok (some v)
    | .error e => .error e
  else
    .error .exception

/-- Equality of modelled Python outcomes is decidable componentwise. -/
instance instDecidableEqExcept {e a : Type} [DecidableEq e] [DecidableEq a] :
    DecidableEq (Except e a) := fun x y =>
  match x, y with
  | .ok v, .ok w => decidable_of_iff (v = w) (by simp)
  | .error v, .error w => decidable_of_iff (v = w) (by simp)
  | .ok _, .error _ => isFalse (by simp)
  | .error _, .ok _ => isFalse (by simp)

/-- An identification candidate: `class MatchResult` of `loaderlib/constants.py`
(`confidence`, `platform_id`, `file_format_id`). -/
structure MatchResult where
  confidence : Nat
  platform_id : Nat
  file_format_id : Nat
  deriving DecidableEq, Repr

/-- One registered format handler as `identify_file` observes it: the system
object's `processor_id` and `endian_id` class attributes, together with the
candidate list its `identify_input_file` produced for the probed input.  The
concrete per-format probing code (hunk/x/z80 parsing) is opaque to the
framework, so its output is carried as data. -/
structure SystemEntry where
  processor_id : Nat
  endian_id : Endian
  system_matches : List MatchResult
  deriving DecidableEq, Repr

/-- Stable insertion used to model Python's `list.sort`: the new element goes
after every already-placed element whose key is less than or equal to its own,
which preserves the original order of equal keys. -/
def stableInsertByConf (x : MatchResult × SystemEntry) :
    List (MatchResult × SystemEntry) → List (MatchResult × SystemEntry)
  | [] => [x]
  | y :: ys =>
    if y.1.confidence ≤ x.1.confidence then y :: stableInsertByConf x ys
    else x :: y :: ys

/-- Model of `matches.sort(key = lambda v: v[1].confidence)`: Python's sort is
stable and ascending on the key. -/
def pySortByConfidence (l : List (MatchResult × SystemEntry)) :
    List (MatchResult × SystemEntry) :=
  l.foldl (fun acc x => stableInsertByConf x acc) []

/-- The candidate pool built by `identify_file`: every registered handler is
asked in registration order and all candidates are pooled (`matches.extend`). -/
def pooledMatches (systems : List SystemEntry) : List (MatchResult × SystemEntry) :=
  systems.foldr (fun sys acc => sys.system_matches.map (fun m => (m, sys)) ++ acc) []

/-- The fields of the `result` dictionary `identify_file` returns on success. -/
structure IdentifyResult where
  processor : Nat
  platform : Nat
  filetype : Nat
  endian : Endian
  deriving DecidableEq, Repr

/-- `identify_file` of `loaderlib/__init__.py`: pools all candidates, sorts
them ascending by confidence, takes the first entry of the sorted pool, and
returns its data provided its file format is not `UNKNOWN` and its confidence
is not `MATCH_NONE`; otherwise returns `None`.  The selected `MatchResult` is
returned alongside the `result` fields (the code keeps it in `match`). -/
def identify_file (systems : List SystemEntry) : Option (MatchResult × IdentifyResult) :=
  let match_list := pooledMatches systems
  if match_list.isEmpty then
    none
  else
    match pySortByConfidence match_list with
    | [] => none
    | (m, sys) :: _ =>
      if m.file_format_id ≠ FILE_FORMAT_UNKNOWN ∧ m.confidence ≠ MATCH_NONE then
        some (m, { processor := sys.processor_id, platform := m.platform_id,
                   filetype := m.file_format_id, endian := sys.endian_id })
      else
        none

/-- The amiga `System.identify_input_file` wrapper (`loaderlib/amiga/__init__.py`):
the single handler module produces one `MatchResult`, which joins the returned
candidate list only when its `platform_id` is not `PLATFORM_UNKNOWN`.  The
human68k and zxspectrum wrappers are textually identical; the raw/binary
handler returns an empty list outright. -/
def amigaIdentifyInputFile (handler_match : MatchResult) : List MatchResult :=
  if handler_match.platform_id ≠ PLATFORM_UNKNOWN then [handler_match] else []

/-- Segment type constant from `loaderlib/__init__.py`. -/
def SEGMENT_TYPE_CODE : Nat := 1
/-- Segment type constant from `loaderlib/__init__.py`. -/
def SEGMENT_TYPE_DATA : Nat := 2
/-- Segment type constant from `loaderlib/__init__.py`. -/
def SEGMENT_TYPE_BSS : Nat := 3

/-- The `Segment` dataclass of `loaderlib/__init__.py`.  `file_offset` keeps
the `-1` sentinel for segments without file backing, hence `Int`. -/
structure Segment where
  type : Nat
  file_offset : Int
  data_length : Nat
  length : Nat
  address : Nat
  cached_data : Option (List Nat)
  deriving DecidableEq, Repr

/-- Accessor `get_segment_address` (by id, over the segment list). -/
def get_segment_address (segments : List Segment) (segment_id : Nat) : Option Nat :=
  (segments[segment_id]?).map Segment.address

/-- Accessor `get_segment_length`. -/
def get_segment_length (segments : List Segment) (segment_id : Nat) : Option Nat :=
  (segments[segment_id]?).map Segment.length

/-- Accessor `get_segment_data` (the lazily cached byte buffer). -/
def get_segment_data (segments : List Segment) (segment_id : Nat) : Option (Option (List Nat)) :=
  (segments[segment_id]?).map Segment.cached_data

/-- One relocation table entry: `(target_segment_id, local_offsets)`. -/
abbrev RelocationEntry := Nat × List Nat

/-- A per-segment symbol list (offset and name pairs); opaque to the claims. -/
abbrev SymbolList := List (Nat × String)

/-- Loader options as consumed by `FileInfo.__init__` and the raw/binary
handler (`class BinaryFileOptions`). -/
structure LoaderOptions where
  is_binary_file : Bool
  processor_id : Nat
  load_address : Nat
  entrypoint_segment_id : Nat
  entrypoint_offset : Nat
  deriving DecidableEq, Repr

/-- The `FileInfo` aggregate of `loaderlib/__init__.py`. -/
structure FileInfo where
  file_name : String
  loader_options : Option LoaderOptions
  segments : List Segment
  relocations_by_segment_id : List (List RelocationEntry)
  symbols_by_segment_id : List SymbolList
  load_address : Nat
  entrypoint_segment_id : Nat
  entrypoint_offset : Nat
  deriving DecidableEq, Repr

/-- `FileInfo.__init__`: the load address is the options' load address exactly
when options are present and request a binary file, and `0` otherwise; the
entrypoint comes from the options when present. -/
def FileInfo.make (file_name : String) (loader_options : Option LoaderOptions) : FileInfo :=
  { file_name := file_name
    loader_options := loader_options
    segments := []
    relocations_by_segment_id := []
    symbols_by_segment_id := []
    load_address :=
      match loader_options with
      | some o => if o.is_binary_file then o.load_address else 0
      | none => 0
    entrypoint_segment_id :=
      match loader_options with
      | some o => o.entrypoint_segment_id
      | none => 0
    entrypoint_offset :=
      match loader_options with
      | some o => o.entrypoint_offset
      | none => 0 }

/-- `FileInfo.add_segment`: the new segment's address is the load address for
the first segment, and the previous segment's address plus its length
otherwise; the segment and its relocation/symbol tables are appended. -/
def FileInfo.add_segment (fi : FileInfo) (segment_type : Nat) (file_offset : Int)
    (data_length segment_length : Nat) (relocations : List RelocationEntry)
    (symbols : SymbolList) : FileInfo :=
  let segment_address :=
    match fi.segments.getLast? with
    | none => fi.load_address
    | some prev => prev.address + prev.length
  { fi with
    segments := fi.segments ++
      [{ type := segment_type, file_offset := file_offset, data_length := data_length,
         length := segment_length, address := segment_address, cached_data := none }]
    relocations_by_segment_id := fi.relocations_by_segment_id ++ [relocations]
    symbols_by_segment_id := fi.symbols_by_segment_id ++ [symbols] }

/-- `FileInfo.add_code_segment`. -/
def FileInfo.add_code_segment (fi : FileInfo) (file_offset : Int)
    (data_length segment_length : Nat) (relocations : List RelocationEntry)
    (symbols : SymbolList) : FileInfo :=
  fi.add_segment SEGMENT_TYPE_CODE file_offset data_length segment_length relocations symbols

/-- The raw/binary handler's `System.identify_input_file`
(`loaderlib/binary/__init__.py`): returns no candidates for any input, so the
handler can never win auto-identification. -/
def binaryIdentifyInputFile (input_file : List Nat) (file_info : FileInfo) : List MatchResult :=
  []

/-- The raw/binary handler's `System.load_input_file`: declines (returns
`False`, mutating nothing) unless loader options are present with
`is_binary_file` set; otherwise determines the file length (seeking to the end
when `f_length` is `None`) and appends a single code segment covering the
whole file with no relocations and no symbols.  The `self.processor_id`
assignment mutates only the handler object, not the `FileInfo`. -/
def binaryLoadInputFile (input_file : List Nat) (file_info : FileInfo)
    (f_length : Option Nat) : Bool × FileInfo :=
  match file_info.loader_options with
  | none => (false, file_info)
  | some opts =>
    if opts.is_binary_file then
      let file_size := f_length.getD input_file.length
      (true, file_info.add_code_segment 0 file_size file_size [] [])
    else
      (false, file_info)

/-- `cache_segment_data` of `loaderlib/__init__.py`: for a file-backed segment
(`file_offset != -1`) it seeks to `base_file_offset + file_offset` and reads
`data_length` bytes (`readinto` on a zero-filled buffer returns however many
bytes were available); only when exactly `data_length` bytes were read does
the segment's `cached_data` receive the bytes — otherwise an error is logged
and `cached_data` is assigned `None`, and the function returns normally either
way.  Indexing a missing segment raises; a negative seek target raises. -/
def cache_segment_data (input_file : List Nat) (segments : List Segment)
    (segment_id : Nat) (base_file_offset : Nat) : Except PyError (List Segment) :=
  match segments[segment_id]? with
  | none => .error .indexError
  | some seg =>
    if seg.file_offset ≠ -1 then
      let file_length := seg.data_length
      let pos : Int := (base_file_offset : Int) + seg.file_offset
      if pos < 0 then
        .error .valueError
      else
        let file_data := pySlice input_file pos.toNat (pos.toNat + file_length)
        let data : Option (List Nat) :=
          if file_data.length = file_length then some file_data else none
        .ok (segments.set segment_id { seg with cached_data := data })
    else
      .ok (segments.set segment_id { seg with cached_data := none })

/-- Load-level error taxonomy (§7 of the specification). -/
inductive LoadError where
  | truncatedRead
  | internal (e : PyError)
  deriving DecidableEq, Repr

/-- Modelled from the spec: the load driver that caches every segment's data
once all segments of a file are known (the driving code lives in
`disassembly.py`, which is not among the provided sources).  Per §4.3 and §7
it calls `cache_segment_data` for each segment in turn and treats a
file-backed segment left without cached data — the observable outcome of a
read that returned fewer than `data_length` bytes — as a hard `TruncatedRead`
error aborting the entire load, so that no partially-cached program is ever
exposed as loaded. -/
def cacheAllSegmentData (input_file : List Nat) (base_file_offset : Nat) :
    List Segment → List Nat → Except LoadError (List Segment)
  | segments, [] => .ok segments
  | segments, i :: rest =>
    match cache_segment_data input_file segments i base_file_offset with
    | .error e => .error (.internal e)
    | .ok segments2 =>
      match segments2[i]? with
      | none => .error (.internal .indexError)
      | some seg =>
        if seg.file_offset ≠ -1 ∧ seg.cached_data = none then
          .error .truncatedRead
        else
          cacheAllSegmentData input_file base_file_offset segments2 rest

/-- Modelled from the spec (driver, see `cacheAllSegmentData`): caching runs
over every segment index in order. -/
def loadCacheSegments (input_file : List Nat) (segments : List Segment)
    (base_file_offset : Nat) : Except LoadError (List Segment) :=
  cacheAllSegmentData input_file base_file_offset segments (List.range segments.length)

/-- The two relocation maps threaded through `relocate_segment_data`:
`relocated_addresses` is a dictionary from each relocated absolute address to
the set of absolute addresses referencing it (`setdefault(address,
set()).add(...)`), and `relocatable_addresses` is the set of referencing
absolute addresses. -/
structure RelocMaps where
  relocated_addresses : List (Nat × List Nat)
  relocatable_addresses : List Nat
  deriving DecidableEq, Repr

/-- Dictionary update `d.setdefault(k, set()).add(v)` on an association list
whose values are sets represented as duplicate-free lists. -/
def setdefaultAdd (m : List (Nat × List Nat)) (k v : Nat) : List (Nat × List Nat) :=
  match m with
  | [] => [(k, [v])]
  | (k2, vs) :: rest =>
    if k2 = k then (k2, if v ∈ vs then vs else vs ++ [v]) :: rest
    else (k2, vs) :: setdefaultAdd rest k v

/-- Set update `s.add(v)` on a set represented as a duplicate-free list. -/
def setAdd (s : List Nat) (v : Nat) : List Nat :=
  if v ∈ s then s else s ++ [v]

/-- Dictionary lookup `d[k]` on the relocated-address map, defaulting to the
empty set for statements about membership. -/
def relocLookup (m : List (Nat × List Nat)) (k : Nat) : List Nat :=
  match m with
  | [] => []
  | (k2, vs) :: rest => if k2 = k then vs else relocLookup rest k

/-- Python slice assignment `data[off:off+4] = packed` on a `memoryview`:
demands that the slice have exactly the replacement's length, raising
`ValueError` otherwise (checked by the caller below). -/
def spliceAssign (l : List Nat) (off : Nat) (rep : List Nat) : List Nat :=
  l.take off ++ rep ++ l.drop (off + rep.length)

/-- The innermost loop of `relocate_segment_data`: for one
`(target_segment_id, local_offsets)` entry, process each local offset in
order — decode the stored 32-bit value, add the target segment's address,
record the referencing absolute address in both maps, and write the encoded
absolute address back over the four bytes.  The buffer is only dereferenced
at an actual offset, so a segment without cached data (`None`) faults with
`TypeError` exactly when some offset exists; a `None` decode (out-of-range
slice) faults at `value + target_address`; an oversized write target faults
at the slice assignment. -/
def relocOffsets (dt : DataTypes) (local_address target_address : Nat) :
    Option (List Nat) → RelocMaps → List Nat → Except PyError (Option (List Nat) × RelocMaps)
  | dataOpt, maps, [] => .ok (dataOpt, maps)
  | none, _, _ :: _ => .error .typeError
  | some data, maps, local_offset :: rest =>
    match dt.uint32_value (pySlice data local_offset (local_offset + 4)) 0 with
    | .error e => .error e
    | .ok none => .error .typeError
    | .ok (some value) =>
      let address := value + target_address
      let maps2 : RelocMaps :=
        { relocated_addresses :=
            setdefaultAdd maps.relocated_addresses address (local_address + local_offset)
          relocatable_addresses :=
            setAdd maps.relocatable_addresses (local_address + local_offset) }
      match dt.uint32_value_as_string address with
      | .error e => .error e
      | .ok packed =>
        if local_offset + packed.length ≤ data.length then
          relocOffsets dt local_address target_address
            (some (spliceAssign data local_offset packed)) maps2 rest
        else
          .error .valueError

/-- The middle loop of `relocate_segment_data`: each relocation entry of one
segment, with the target segment's address looked up in the segment list. -/
def relocEntries (dt : DataTypes) (segments : List Segment) (local_address : Nat) :
    Option (List Nat) → RelocMaps → List RelocationEntry →
    Except PyError (Option (List Nat) × RelocMaps)
  | dataOpt, maps, [] => .ok (dataOpt, maps)
  | dataOpt, maps, (target_segment_id, local_offsets) :: rest =>
    match get_segment_address segments target_segment_id with
    | none => .error .indexError
    | some target_address =>
      match relocOffsets dt local_address target_address dataOpt maps local_offsets with
      | .error e => .error e
      | .ok (dataOpt2, maps2) => relocEntries dt segments local_address dataOpt2 maps2 rest

/-- One iteration of the outer loop of `relocate_segment_data` for a given
`segment_id`: fetch the segment's cached data and address, run its relocation
entries, and store the (in the source, in-place mutated) buffer back. -/
def relocateOneSegment (dt : DataTypes) (relocations : List (List RelocationEntry))
    (segments : List Segment) (maps : RelocMaps) (segment_id : Nat) :
    Except PyError (List Segment × RelocMaps) :=
  match segments[segment_id]?, relocations[segment_id]? with
  | none, _ => .error .indexError
  | _, none => .error .indexError
  | some seg, some entries =>
    match relocEntries dt segments seg.address seg.cached_data maps entries with
    | .error e => .error e
    | .ok (dataOpt2, maps2) =>
      .ok (segments.set segment_id { seg with cached_data := dataOpt2 }, maps2)

/-- `relocate_segment_data` of `loaderlib/__init__.py`: the generic
longword-based relocation pass over every segment in order, threading the
segment buffers and the two relocation maps. -/
def relocate_segment_data (dt : DataTypes) (segments : List Segment)
    (relocations : List (List RelocationEntry)) (maps : RelocMaps) :
    Except PyError (List Segment × RelocMaps) :=
  (List.range segments.length).foldl
    (fun acc segment_id =>
      match acc with
      | .error e => .error e
      | .ok (segs, m) => relocateOneSegment dt relocations segs m segment_id)
    (.ok (segments, maps))

/-- `_count_bits` of `loaderlib/constants.py`: counts how many times the value
must be halved to reach zero. -/
def countBits (v : Nat) : Nat :=
  if v = 0 then 0 else countBits (v / 2) + 1
decreasing_by exact Nat.div_lt_self (Nat.pos_of_ne_zero (by assumption)) (by omega)

/-- `_make_bitmask` of `loaderlib/constants.py`: the mask with the given
number of low bits set. -/
def makeBitmask : Nat → Nat
  | 0 => 0
  | n + 1 => makeBitmask n ||| 1 <<< n

/-- `DATA_TYPE_BIT0 = DATA_TYPE_CODE - 1` from `loaderlib/constants.py`. -/
def DATA_TYPE_BIT0 : Nat := DATA_TYPE_CODE - 1
/-- `DATA_TYPE_BITCOUNT = _count_bits(DATA_TYPE_DATA32)`. -/
def DATA_TYPE_BITCOUNT : Nat := countBits DATA_TYPE_DATA32
/-- `DATA_TYPE_BITMASK = _make_bitmask(DATA_TYPE_BITCOUNT)`. -/
def DATA_TYPE_BITMASK : Nat := makeBitmask DATA_TYPE_BITCOUNT

/-- `BLOCK_FLAG_ALLOC` from `disassembly_data.py`: marks a block not backed by
file data. -/
def BLOCK_FLAG_ALLOC : Nat := 1 <<< (DATA_TYPE_BITCOUNT + 0)
/-- `BLOCK_FLAG_PROCESSED` from `disassembly_data.py`: marks a block already
decoded. -/
def BLOCK_FLAG_PROCESSED : Nat := 1 <<< (DATA_TYPE_BITCOUNT + 1)
/-- `BLOCK_SPLIT_BITMASK` from `disassembly_data.py`: the flags a split
preserves. -/
def BLOCK_SPLIT_BITMASK : Nat := BLOCK_FLAG_ALLOC ||| DATA_TYPE_BITMASK ||| BLOCK_FLAG_PROCESSED

/-- `get_block_flags_data_type` of `disassembly_data.py`:
`(flags >> DATA_TYPE_BIT0) & DATA_TYPE_BITMASK`. -/
def get_block_flags_data_type (flags : Nat) : Nat :=
  (flags >>> DATA_TYPE_BIT0) &&& DATA_TYPE_BITMASK

/-- `get_data_type_block_flags` of `disassembly_data.py`:
`(data_type & DATA_TYPE_BITMASK) << DATA_TYPE_BIT0`. -/
def get_data_type_block_flags (data_type : Nat) : Nat :=
  (data_type &&& DATA_TYPE_BITMASK) <<< DATA_TYPE_BIT0

/-- The `SegmentBlock` class of `disassembly_data.py`.  `line_data` and
`references` carry per-block payloads whose structure the claims never
inspect. -/
structure SegmentBlock where
  sequence_id : Nat
  segment_id : Nat
  segment_offset : Nat
  address : Nat
  length : Nat
  flags : Nat
  line_data : Option (List Nat)
  line_count : Nat
  references : Option (List (Nat × Nat × String))
  deriving DecidableEq, Repr

/-- `SegmentBlock.copy_to`: copies every field, the `sequence_id` included
(the constructor overrides it afterwards). -/
def SegmentBlock.copy_to (b target : SegmentBlock) : SegmentBlock :=
  { target with
    sequence_id := b.sequence_id
    segment_id := b.segment_id
    segment_offset := b.segment_offset
    address := b.address
    length := b.length
    flags := b.flags
    line_data := b.line_data
    line_count := b.line_count
    references := b.references }

/-- The class-attribute defaults a fresh `SegmentBlock` starts from. -/
def SegmentBlock.defaults : SegmentBlock :=
  { sequence_id := 0, segment_id := 0, segment_offset := 0, address := 0,
    length := 0, flags := 0, line_data := none, line_count := 0, references := none }

/-- `SegmentBlock.__init__(copy_block)`: optionally copies an existing block's
fields, then overrides `sequence_id` with the next value of the class-global
`last_sequence_id` counter (modelled as an explicit counter, returned
updated). -/
def SegmentBlock.make (last_sequence_id : Nat) (copy_block : Option SegmentBlock) :
    SegmentBlock × Nat :=
  let b :=
    match copy_block with
    | some cb => cb.copy_to SegmentBlock.defaults
    | none => SegmentBlock.defaults
  let b := { b with sequence_id := last_sequence_id + 1 }
  (b, last_sequence_id + 1)

/-- `get_block_data_type` of `disassembly_data.py`. -/
def get_block_data_type (block : SegmentBlock) : Nat :=
  get_block_flags_data_type block.flags

/-- `set_block_data_type` of `disassembly_data.py`:
`flags &= ~(DATA_TYPE_BITMASK << DATA_TYPE_BIT0); flags |= ...` — on Python's
unbounded non-negative flag values, `x & ~m` is `Nat.ldiff x m`. -/
def set_block_data_type (block : SegmentBlock) (data_type : Nat) : SegmentBlock :=
  { block with
    flags := Nat.ldiff block.flags (DATA_TYPE_BITMASK <<< DATA_TYPE_BIT0) |||
      get_data_type_block_flags data_type }

/-- Modelled from the spec: the block-splitting routine belongs to the editing
layer (`disassembly.py`), which is not among the provided sources; §4.4 fixes
its policy — the block is replaced by pieces, each a structural copy of the
original (`copy_to`, via the copy constructor which allocates a fresh
`sequence_id`) except for `address`, `segment_offset` and `length`, and with
`flags` equal to `original.flags & BLOCK_SPLIT_BITMASK`.  This is the
two-piece split at interior offset `mid`. -/
def split_block (last_sequence_id : Nat) (b : SegmentBlock) (mid : Nat) :
    (SegmentBlock × SegmentBlock) × Nat :=
  let r1 := SegmentBlock.make last_sequence_id (some b)
  let p1 := { r1.1 with
    length := mid
    flags := b.flags &&& BLOCK_SPLIT_BITMASK }
  let r2 := SegmentBlock.make r1.2 (some b)
  let p2 := { r2.1 with
    segment_offset := b.segment_offset + mid
    address := b.address + mid
    length := b.length - mid
    flags := b.flags &&& BLOCK_SPLIT_BITMASK }
  ((p1, p2), r2.2)

/-- The data-type bits start at bit zero. -/
theorem DATA_TYPE_BIT0_eq : DATA_TYPE_BIT0 = 0 := rfl

/-- The derived bit-count constant evaluates to three. -/
theorem DATA_TYPE_BITCOUNT_eq : DATA_TYPE_BITCOUNT = 3 := by
  simp [DATA_TYPE_BITCOUNT, countBits, DATA_TYPE_DATA32]

/-- The derived data-type mask evaluates to the low three bits. -/
theorem DATA_TYPE_BITMASK_eq : DATA_TYPE_BITMASK = 7 := by
  simp [DATA_TYPE_BITMASK, DATA_TYPE_BITCOUNT_eq, makeBitmask]

/-- The allocation flag sits just above the data-type bits. -/
theorem BLOCK_FLAG_ALLOC_eq : BLOCK_FLAG_ALLOC = 8 := by
  simp [BLOCK_FLAG_ALLOC, DATA_TYPE_BITCOUNT_eq]

/-- The processed flag sits one bit above the allocation flag. -/
theorem BLOCK_FLAG_PROCESSED_eq : BLOCK_FLAG_PROCESSED = 16 := by
  simp [BLOCK_FLAG_PROCESSED, DATA_TYPE_BITCOUNT_eq]

/-- The split mask covers exactly the data-type, allocation and processed
bits. -/
theorem BLOCK_SPLIT_BITMASK_eq : BLOCK_SPLIT_BITMASK = 31 := by
  simp [BLOCK_SPLIT_BITMASK, BLOCK_FLAG_ALLOC_eq, BLOCK_FLAG_PROCESSED_eq, DATA_TYPE_BITMASK_eq]

/-- A value below a power of two has no bits at or above that position. -/
theorem testBit_false_of_lt_pow (n j k : Nat) (hn : n < 2 ^ k) (hj : k ≤ j) :
    n.testBit j = false := by
  apply Nat.testBit_eq_false_of_lt
  calc n < 2 ^ k := hn
    _ ≤ 2 ^ j := Nat.pow_le_pow_right (by norm_num) hj

/-- The bits of the numeral seven. -/
theorem testBit_seven (j : Nat) : Nat.testBit 7 j = decide (j < 3) := by
  rcases Nat.lt_or_ge j 3 with h | h
  · interval_cases j <;> decide
  · simp [testBit_false_of_lt_pow 7 j 3 (by norm_num) h, Nat.not_lt.mpr h]

/-- The bits of the numeral eight. -/
theorem testBit_eight (j : Nat) : Nat.testBit 8 j = decide (j = 3) := by
  rcases Nat.lt_or_ge j 4 with h | h
  · interval_cases j <;> decide
  · have h4 : j ≠ 3 := by omega
    simp [testBit_false_of_lt_pow 8 j 4 (by norm_num) h, h4]

/-- The bits of the numeral sixteen. -/
theorem testBit_sixteen (j : Nat) : Nat.testBit 16 j = decide (j = 4) := by
  rcases Nat.lt_or_ge j 5 with h | h
  · interval_cases j <;> decide
  · have h5 : j ≠ 4 := by omega
    simp [testBit_false_of_lt_pow 16 j 5 (by norm_num) h, h5]

/-- Bit-level description of the flag field written by `set_block_data_type`:
below the data-type bit range the new tag's bits appear, above it the original
flag bits are untouched. -/
theorem set_block_data_type_testBit (b : SegmentBlock) (T i : Nat) (hT : T < 8) :
    (set_block_data_type b T).flags.testBit i =
      if i < 3 then T.testBit i else b.flags.testBit i := by
  simp only [set_block_data_type, get_data_type_block_flags, DATA_TYPE_BITMASK_eq,
    DATA_TYPE_BIT0_eq, Nat.shiftLeft_zero,
    Nat.testBit_lor, Nat.testBit_ldiff, Nat.testBit_land, testBit_seven]
  rcases Nat.lt_or_ge i 3 with h | h
  · simp [h]
  · simp [Nat.not_lt.mpr h, testBit_false_of_lt_pow T i 3 hT h]

/-- Claim C5: for every block and every supported data-type tag, reading the
data type back after `set_block_data_type` returns that tag, and
`set_block_data_type` changes only the data-type bits of `flags` — the
allocation bit, the processed bit, and every other bit at or above
`DATA_TYPE_BITCOUNT` are unchanged. -/
theorem claim_C5 (b : SegmentBlock) (T : Nat)
    (hT : T = DATA_TYPE_CODE ∨ T = DATA_TYPE_ASCII ∨ T = DATA_TYPE_DATA08 ∨
      T = DATA_TYPE_DATA16 ∨ T = DATA_TYPE_DATA32) :
    get_block_data_type (set_block_data_type b T) = T ∧
    (set_block_data_type b T).flags &&& BLOCK_FLAG_ALLOC = b.flags &&& BLOCK_FLAG_ALLOC ∧
    (set_block_data_type b T).flags &&& BLOCK_FLAG_PROCESSED =
      b.flags &&& BLOCK_FLAG_PROCESSED ∧
    ∀ i, DATA_TYPE_BITCOUNT ≤ i →
      (set_block_data_type b T).flags.testBit i = b.flags.testBit i := by
  have hT8 : T < 8 := by
    rcases hT with h | h | h | h | h <;> simp [h, DATA_TYPE_CODE, DATA_TYPE_ASCII,
      DATA_TYPE_DATA08, DATA_TYPE_DATA16, DATA_TYPE_DATA32]
  have hbit : ∀ i, (set_block_data_type b T).flags.testBit i =
      if i < 3 then T.testBit i else b.flags.testBit i :=
    fun i => set_block_data_type_testBit b T i hT8
  refine ⟨?_, ?_, ?_, ?_⟩
  · apply Nat.eq_of_testBit_eq
    intro i
    simp only [get_block_data_type, get_block_flags_data_type, DATA_TYPE_BITMASK_eq,
      DATA_TYPE_BIT0_eq, Nat.shiftRight_zero, Nat.testBit_land,
      hbit, testBit_seven]
    rcases Nat.lt_or_ge i 3 with h | h
    · simp [h]
    · simp [Nat.not_lt.mpr h, testBit_false_of_lt_pow T i 3 hT8 h]
  · apply Nat.eq_of_testBit_eq
    intro i
    simp only [BLOCK_FLAG_ALLOC_eq, Nat.testBit_land, hbit, testBit_eight]
    rcases eq_or_ne i 3 with h | h
    · simp [h]
    · simp [h]
  · apply Nat.eq_of_testBit_eq
    intro i
    simp only [BLOCK_FLAG_PROCESSED_eq, Nat.testBit_land, hbit, testBit_sixteen]
    rcases eq_or_ne i 4 with h | h
    · simp [h]
    · simp [h]
  · intro i hi
    rw [DATA_TYPE_BITCOUNT_eq] at hi
    simp [hbit, Nat.not_lt.mpr hi]

/-- Witness for claim C5: setting a concrete block with allocation and
processed bits raised to the 32-bit data type keeps those bits and yields the
32-bit tag back. -/
theorem claim_C5_witness :
    get_block_data_type (set_block_data_type
      { sequence_id := 1, segment_id := 0, segment_offset := 0, address := 0,
        length := 8, flags := 26, line_data := none, line_count := 0,
        references := none } DATA_TYPE_DATA32) = DATA_TYPE_DATA32 ∧
    (set_block_data_type
      { sequence_id := 1, segment_id := 0, segment_offset := 0, address := 0,
        length := 8, flags := 26, line_data := none, line_count := 0,
        references := none } DATA_TYPE_DATA32).flags &&& BLOCK_FLAG_ALLOC =
      (26 : Nat) &&& BLOCK_FLAG_ALLOC :=
  have h := claim_C5
    { sequence_id := 1, segment_id := 0, segment_offset := 0, address := 0,
      length := 8, flags := 26, line_data := none, line_count := 0,
      references := none } DATA_TYPE_DATA32 (by simp)
  ⟨h.1, h.2.1⟩

/-- Claim C4: splitting a block yields pieces whose `flags` equal
`original.flags & BLOCK_SPLIT_BITMASK` exactly — no bit outside the mask
survives and none is invented — and whose `sequence_id`s are fresh: distinct
from each other and from every previously assigned id (every id the global
counter has already handed out is at most the counter's current value). -/
theorem claim_C4 (last_sequence_id : Nat) (b : SegmentBlock) (mid : Nat)
    (assigned : List Nat) (hprev : ∀ i ∈ assigned, i ≤ last_sequence_id) :
    (split_block last_sequence_id b mid).1.1.flags = b.flags &&& BLOCK_SPLIT_BITMASK ∧
    (split_block last_sequence_id b mid).1.2.flags = b.flags &&& BLOCK_SPLIT_BITMASK ∧
    (split_block last_sequence_id b mid).1.1.sequence_id ∉ assigned ∧
    (split_block last_sequence_id b mid).1.2.sequence_id ∉ assigned ∧
    (split_block last_sequence_id b mid).1.1.sequence_id ≠
      (split_block last_sequence_id b mid).1.2.sequence_id := by
  refine ⟨rfl, rfl, ?_, ?_, by simp [split_block, SegmentBlock.make]⟩
  · intro hmem
    have := hprev _ hmem
    simp [split_block, SegmentBlock.make] at hmem
    have := hprev _ hmem
    omega
  · intro hmem
    have := hprev _ hmem
    simp [split_block, SegmentBlock.make] at hmem
    have := hprev _ hmem
    omega

/-- Witness for claim C4: splitting a concrete block whose flags carry bits
outside the split mask, with ids 3 and 7 already assigned. -/
theorem claim_C4_witness :
    (split_block 7
      { sequence_id := 3, segment_id := 0, segment_offset := 0, address := 100,
        length := 12, flags := 99, line_data := none, line_count := 0,
        references := none } 4).1.1.flags = (99 : Nat) &&& BLOCK_SPLIT_BITMASK ∧
    (split_block 7
      { sequence_id := 3, segment_id := 0, segment_offset := 0, address := 100,
        length := 12, flags := 99, line_data := none, line_count := 0,
        references := none } 4).1.1.sequence_id ∉ [3, 7] :=
  have h := claim_C4 7
    { sequence_id := 3, segment_id := 0, segment_offset := 0, address := 100,
      length := 12, flags := 99, line_data := none, line_count := 0,
      references := none } 4 [3, 7] (by decide)
  ⟨h.1, h.2.2.1⟩

/-- Claim C9: the raw/binary handler never produces an identification
candidate, and its loader succeeds exactly when the loader options are
present and request binary loading; whenever it declines, the `FileInfo` is
returned untouched — in particular no segment is added. -/
theorem claim_C9 (input_file : List Nat) (fi : FileInfo) (f_length : Option Nat) :
    binaryIdentifyInputFile input_file fi = [] ∧
    ((binaryLoadInputFile input_file fi f_length).1 = true ↔
      ∃ o, fi.loader_options = some o ∧ o.is_binary_file = true) ∧
    ((binaryLoadInputFile input_file fi f_length).1 = false →
      (binaryLoadInputFile input_file fi f_length).2 = fi) := by
  refine ⟨rfl, ?_, ?_⟩
  · rcases h : fi.loader_options with _ | o
    · simp [binaryLoadInputFile, h]
    · rcases hb : o.is_binary_file with _ | _
      · simp [binaryLoadInputFile, h, hb]
      · simp [binaryLoadInputFile, h, hb]
  · rcases h : fi.loader_options with _ | o
    · simp [binaryLoadInputFile, h]
    · rcases hb : o.is_binary_file with _ | _
      · simp [binaryLoadInputFile, h, hb]
      · simp [binaryLoadInputFile, h, hb]

/-- Witness for claim C9: with no loader options the binary loader declines a
1024-byte input and leaves the fresh `FileInfo` without segments. -/
theorem claim_C9_witness :
    binaryLoadInputFile (List.replicate 1024 0) (FileInfo.make "demo.bin" none) none =
      (false, FileInfo.make "demo.bin" none) := by
  have h := claim_C9 (List.replicate 1024 0) (FileInfo.make "demo.bin" none) none
  have h1 : (binaryLoadInputFile (List.replicate 1024 0)
      (FileInfo.make "demo.bin" none) none).1 = false := by rfl
  have h2 := h.2.2 h1
  calc binaryLoadInputFile (List.replicate 1024 0) (FileInfo.make "demo.bin" none) none
      = ((binaryLoadInputFile (List.replicate 1024 0)
          (FileInfo.make "demo.bin" none) none).1,
         (binaryLoadInputFile (List.replicate 1024 0)
          (FileInfo.make "demo.bin" none) none).2) := rfl
    _ = (false, FileInfo.make "demo.bin" none) := by rw [h1, h2]

/-- Claim C10: a codec constructed with any endianness other than `BIG` —
`UNKNOWN` included — decodes and encodes every multi-byte value exactly as the
little-endian codec does. -/
theorem claim_C10 (e : Endian) (he : e ≠ Endian.BIG) (s : List Nat) (v : Nat) :
    DataTypes.uint16 ⟨e⟩ s = DataTypes.uint16 ⟨Endian.LITTLE⟩ s ∧
    DataTypes.int16 ⟨e⟩ s = DataTypes.int16 ⟨Endian.LITTLE⟩ s ∧
    DataTypes.uint32 ⟨e⟩ s = DataTypes.uint32 ⟨Endian.LITTLE⟩ s ∧
    DataTypes.int32 ⟨e⟩ s = DataTypes.int32 ⟨Endian.LITTLE⟩ s ∧
    DataTypes.uint32_value_as_string ⟨e⟩ v =
      DataTypes.uint32_value_as_string ⟨Endian.LITTLE⟩ v := by
  cases e
  · exact ⟨rfl, rfl, rfl, rfl, rfl⟩
  · exact absurd rfl he
  · exact ⟨rfl, rfl, rfl, rfl, rfl⟩

/-- Witness for claim C10: an `UNKNOWN`-endian codec reads a four-byte buffer
little-endian. -/
theorem claim_C10_witness :
    DataTypes.uint32 ⟨Endian.UNKNOWN⟩ [1, 2, 3, 4] =
      DataTypes.uint32 ⟨Endian.LITTLE⟩ [1, 2, 3, 4] :=
  (claim_C10 Endian.UNKNOWN (by decide) [1, 2, 3, 4] 0).2.2.1

/-- Claim C1 (code bug exhibit): with two registered handlers of which the
first produces a `POSSIBLE` Amiga hunk candidate and the second a `CERTAIN`
X68000 candidate, `identify_file` returns the `POSSIBLE` candidate — the sort
is ascending on confidence and the code takes the first entry, so the
lowest-confidence candidate wins even though a strictly more confident one is
pooled, contradicting the selection the code's own comment announces. -/
theorem claim_C1_code_bug :
    identify_file
      [{ processor_id := PROCESSOR_M680x0, endian_id := Endian.BIG,
         system_matches :=
           [{ confidence := MATCH_POSSIBLE, platform_id := PLATFORM_AMIGA,
              file_format_id := FILE_FORMAT_AMIGA_HUNK_EXECUTABLE }] },
       { processor_id := PROCESSOR_M680x0, endian_id := Endian.BIG,
         system_matches :=
           [{ confidence := MATCH_CERTAIN, platform_id := PLATFORM_X68000,
              file_format_id := FILE_FORMAT_X68000_X_EXECUTABLE }] }] =
      some ({ confidence := MATCH_POSSIBLE, platform_id := PLATFORM_AMIGA,
              file_format_id := FILE_FORMAT_AMIGA_HUNK_EXECUTABLE },
            { processor := PROCESSOR_M680x0, platform := PLATFORM_AMIGA,
              filetype := FILE_FORMAT_AMIGA_HUNK_EXECUTABLE, endian := Endian.BIG }) ∧
    MATCH_POSSIBLE < MATCH_CERTAIN := by
  exact ⟨by decide, by decide⟩

/-- Claim C7 (counterexample): on a one-byte buffer the 16-bit decoder — and
`sized_value` dispatching to it — does not return an explicit failure value
but propagates the `struct.error` exception, and the 8-bit path raises
`IndexError` on an empty buffer; only the 32-bit decoder returns the explicit
failure `None`. -/
theorem claim_C7_counterexample :
    DataTypes.uint16_value ⟨Endian.BIG⟩ [7] 0 = Except.error PyError.structError ∧
    DataTypes.sized_value ⟨Endian.BIG⟩ DATA_TYPE_DATA16 [7] 0 =
      Except.error PyError.structError ∧
    DataTypes.sized_value ⟨Endian.BIG⟩ DATA_TYPE_DATA08 [] 0 =
      Except.error PyError.indexError ∧
    DataTypes.uint32_value ⟨Endian.BIG⟩ [7] 0 = Except.ok none := by
  refine ⟨by decide, by decide, by decide, by decide⟩

/-- A two-byte unpack of anything but two bytes raises `struct.error`. -/
theorem structUnpack16_short (big : Bool) (s : List Nat) (h : s.length ≠ 2) :
    structUnpack16 big s = .error .structError := by
  rcases s with _ | ⟨a, _ | ⟨b, _ | ⟨c, t⟩⟩⟩
  · rfl
  · rfl
  · exact absurd rfl h
  · rfl

/-- A four-byte unpack of anything but four bytes raises `struct.error`. -/
theorem structUnpack32_short (big : Bool) (s : List Nat) (h : s.length ≠ 4) :
    structUnpack32 big s = .error .structError := by
  rcases s with _ | ⟨a, _ | ⟨b, _ | ⟨c, _ | ⟨d, _ | ⟨e, t⟩⟩⟩⟩⟩
  · rfl
  · rfl
  · rfl
  · rfl
  · exact absurd rfl h
  · rfl

/-- `uint16` raises `struct.error` on a buffer that is not two bytes, for
either endianness. -/
theorem uint16_short (dt : DataTypes) (s : List Nat) (h : s.length ≠ 2) :
    dt.uint16 s = .error .structError := by
  unfold DataTypes.uint16
  split <;> exact structUnpack16_short _ _ h

/-- `uint32` raises `struct.error` on a buffer that is not four bytes, for
either endianness. -/
theorem uint32_short (dt : DataTypes) (s : List Nat) (h : s.length ≠ 4) :
    dt.uint32 s = .error .structError := by
  unfold DataTypes.uint32
  split <;> exact structUnpack32_short _ _ h

/-- Claim C7 as the code has it: when fewer bytes remain than a decoder
requires, none of the sized decoders reads adjacent memory or fabricates a
value, but only the 32-bit path fails by returning the explicit failure value
`None`; the 16-bit path propagates `struct.error` and the 8-bit path
propagates `IndexError`, and `sized_value` forwards each behaviour. -/
theorem claim_C7_amended (dt : DataTypes) (bytes : List Nat) (idx : Nat) :
    (bytes.length < idx + 4 →
      dt.uint32_value bytes idx = .ok none ∧
      dt.sized_value DATA_TYPE_DATA32 bytes idx = .ok none) ∧
    (bytes.length < idx + 2 →
      dt.uint16_value bytes idx = .error .structError ∧
      dt.sized_value DATA_TYPE_DATA16 bytes idx = .error .structError) ∧
    (bytes.length < idx + 1 →
      dt.uint8_value bytes idx = .error .indexError ∧
      dt.sized_value DATA_TYPE_DATA08 bytes idx = .error .indexError) := by
  refine ⟨?_, ?_, ?_⟩
  · intro h
    have hs : (pySlice bytes idx (idx + 4)).length ≠ 4 := by
      simp only [pySlice, List.length_take, List.length_drop]
      omega
    have h32 : dt.uint32_value bytes idx = .ok none := by
      simp [DataTypes.uint32_value, uint32_short dt _ hs]
    exact ⟨h32, by simp [DataTypes.sized_value, h32]⟩
  · intro h
    have hs : (pySlice bytes idx (idx + 2)).length ≠ 2 := by
      simp only [pySlice, List.length_take, List.length_drop]
      omega
    have h16 : dt.uint16_value bytes idx = .error .structError := by
      simp [DataTypes.uint16_value, uint16_short dt _ hs]
    refine ⟨h16, ?_⟩
    have hne : DATA_TYPE_DATA16 ≠ DATA_TYPE_DATA32 := by decide
    simp [DataTypes.sized_value, hne, h16]
  · intro h
    have hs : bytes[idx]? = none := by
      apply List.getElem?_eq_none
      omega
    have h8 : dt.uint8_value bytes idx = .error .indexError := by
      simp [DataTypes.uint8_value, hs]
    have hne32 : DATA_TYPE_DATA08 ≠ DATA_TYPE_DATA32 := by decide
    have hne16 : DATA_TYPE_DATA08 ≠ DATA_TYPE_DATA16 := by decide
    exact ⟨h8, by simp [DataTypes.sized_value, hne32, hne16, h8]⟩

/-- Witness for the amended claim C7: a one-byte big-endian buffer is short
for the 32- and 16-bit decoders, and the empty buffer for the 8-bit one. -/
theorem claim_C7_amended_witness :
    DataTypes.uint32_value ⟨Endian.BIG⟩ [7] 0 = .ok none ∧
    DataTypes.uint16_value ⟨Endian.BIG⟩ [7] 0 = .error .structError ∧
    DataTypes.uint8_value ⟨Endian.BIG⟩ [] 0 = .error .indexError :=
  ⟨((claim_C7_amended ⟨Endian.BIG⟩ [7] 0).1 (by decide)).1,
   ((claim_C7_amended ⟨Endian.BIG⟩ [7] 0).2.1 (by decide)).1,
   ((claim_C7_amended ⟨Endian.BIG⟩ [] 0).2.2 (by decide)).1⟩

/-- Stable insertion adds exactly one element. -/
theorem stableInsertByConf_length (x : MatchResult × SystemEntry)
    (l : List (MatchResult × SystemEntry)) :
    (stableInsertByConf x l).length = l.length + 1 := by
  induction l with
  | nil => rfl
  | cons y ys ih =>
    unfold stableInsertByConf
    split
    · simp [ih]
    · simp

/-- Membership through stable insertion. -/
theorem mem_stableInsertByConf (x y : MatchResult × SystemEntry)
    (l : List (MatchResult × SystemEntry)) :
    y ∈ stableInsertByConf x l ↔ y = x ∨ y ∈ l := by
  induction l with
  | nil => simp [stableInsertByConf]
  | cons z zs ih =>
    unfold stableInsertByConf
    split
    · simp only [List.mem_cons, ih]
      tauto
    · simp only [List.mem_cons]

/-- Folding stable insertions grows the accumulator by one per element. -/
theorem foldl_stableInsert_length (l : List (MatchResult × SystemEntry)) :
    ∀ acc : List (MatchResult × SystemEntry),
      (l.foldl (fun acc x => stableInsertByConf x acc) acc).length =
        acc.length + l.length := by
  induction l with
  | nil => simp
  | cons x xs ih =>
    intro acc
    rw [List.foldl_cons, ih (stableInsertByConf x acc), stableInsertByConf_length]
    simp
    omega

/-- Elements of a fold of stable insertions come from the accumulator or the
folded list. -/
theorem mem_foldl_stableInsert (y : MatchResult × SystemEntry)
    (l : List (MatchResult × SystemEntry)) :
    ∀ acc : List (MatchResult × SystemEntry),
      y ∈ l.foldl (fun acc x => stableInsertByConf x acc) acc → y ∈ acc ∨ y ∈ l := by
  induction l with
  | nil =>
    intro acc h
    exact Or.inl h
  | cons x xs ih =>
    intro acc h
    rw [List.foldl_cons] at h
    rcases ih (stableInsertByConf x acc) h with h3 | h3
    · rcases (mem_stableInsertByConf x y acc).mp h3 with h4 | h4
      · simp [h4]
      · exact Or.inl h4
    · simp [h3]

/-- The modelled Python sort preserves length. -/
theorem pySortByConfidence_length (l : List (MatchResult × SystemEntry)) :
    (pySortByConfidence l).length = l.length := by
  simpa using foldl_stableInsert_length l []

/-- The modelled Python sort draws every element from its input. -/
theorem mem_of_mem_pySortByConfidence (y : MatchResult × SystemEntry)
    (l : List (MatchResult × SystemEntry)) (h : y ∈ pySortByConfidence l) : y ∈ l := by
  rcases mem_foldl_stableInsert y l [] h with h2 | h2
  · simp at h2
  · exact h2

/-- Claim C8 as the code has it: `identify_file` fails on an empty candidate
pool; a returned candidate is always drawn from the pool, never has
`file_format_id == UNKNOWN` or `confidence == NONE`, and supplies the
returned platform/filetype fields; and `identify_file` itself never examines
`platform_id` — instead each `System.identify_input_file` wrapper (amiga
shown; human68k and zxspectrum are identical) drops `UNKNOWN`-platform
candidates before they can reach the pool. -/
theorem claim_C8_amended (systems : List SystemEntry) :
    (pooledMatches systems = [] → identify_file systems = none) ∧
    (∀ m r, identify_file systems = some (m, r) →
      m.file_format_id ≠ FILE_FORMAT_UNKNOWN ∧ m.confidence ≠ MATCH_NONE ∧
      m ∈ (pooledMatches systems).map Prod.fst ∧
      r.platform = m.platform_id ∧ r.filetype = m.file_format_id) ∧
    (∀ raw : MatchResult, ∀ m2 ∈ amigaIdentifyInputFile raw,
      m2.platform_id ≠ PLATFORM_UNKNOWN) := by
  refine ⟨?_, ?_, ?_⟩
  · intro h
    simp [identify_file, h]
  · intro m r h
    by_cases hempty : (pooledMatches systems).isEmpty
    · simp [identify_file, hempty] at h
    · rcases hs : pySortByConfidence (pooledMatches systems) with _ | ⟨⟨m1, sys⟩, rest⟩
      · simp [identify_file, hempty, hs] at h
      · simp only [identify_file, hempty, Bool.false_eq_true, if_false, hs] at h
        split at h
        · rename_i hguard
          simp only [Option.some.injEq, Prod.mk.injEq] at h
          obtain ⟨hm, hr⟩ := h
          subst hm
          subst hr
          refine ⟨hguard.1, hguard.2, ?_, rfl, rfl⟩
          have hmem : (m1, sys) ∈ pySortByConfidence (pooledMatches systems) := by
            simp [hs]
          exact List.mem_map_of_mem Prod.fst (mem_of_mem_pySortByConfidence _ _ hmem)
        · exact absurd h (by simp)
  · intro raw m2 hm2
    unfold amigaIdentifyInputFile at hm2
    split at hm2
    · rename_i hplat
      simp only [List.mem_singleton] at hm2
      subst hm2
      exact hplat
    · simp at hm2

/-- Witness for the amended claim C8: applied to a concrete one-handler pool,
the returned candidate passes the format guard. -/
theorem claim_C8_amended_witness :
    ({ confidence := MATCH_POSSIBLE, platform_id := PLATFORM_AMIGA,
       file_format_id := FILE_FORMAT_AMIGA_HUNK_EXECUTABLE } : MatchResult).file_format_id ≠
      FILE_FORMAT_UNKNOWN :=
  ((claim_C8_amended
    [{ processor_id := PROCESSOR_M680x0, endian_id := Endian.BIG,
       system_matches :=
         [{ confidence := MATCH_POSSIBLE, platform_id := PLATFORM_AMIGA,
            file_format_id := FILE_FORMAT_AMIGA_HUNK_EXECUTABLE }] }]).2.1
    { confidence := MATCH_POSSIBLE, platform_id := PLATFORM_AMIGA,
      file_format_id := FILE_FORMAT_AMIGA_HUNK_EXECUTABLE }
    { processor := PROCESSOR_M680x0, platform := PLATFORM_AMIGA,
      filetype := FILE_FORMAT_AMIGA_HUNK_EXECUTABLE, endian := Endian.BIG }
    (by decide)).1

/-- Claim C8 (counterexample): a pool whose only — hence highest-confidence —
candidate is `CERTAIN` but carries `platform_id == UNKNOWN` does not make
identification fail: `identify_file` checks only the file format and the
confidence of the selected candidate and happily returns the
`UNKNOWN`-platform result. -/
theorem claim_C8_counterexample :
    identify_file
      [{ processor_id := PROCESSOR_M680x0, endian_id := Endian.BIG,
         system_matches :=
           [{ confidence := MATCH_CERTAIN, platform_id := PLATFORM_UNKNOWN,
              file_format_id := FILE_FORMAT_AMIGA_HUNK_EXECUTABLE }] }] =
      some ({ confidence := MATCH_CERTAIN, platform_id := PLATFORM_UNKNOWN,
              file_format_id := FILE_FORMAT_AMIGA_HUNK_EXECUTABLE },
            { processor := PROCESSOR_M680x0, platform := PLATFORM_UNKNOWN,
              filetype := FILE_FORMAT_AMIGA_HUNK_EXECUTABLE, endian := Endian.BIG }) := by
  decide

/-- One recorded call to `FileInfo.add_segment` with its full argument list. -/
structure AddSegmentCall where
  segment_type : Nat
  file_offset : Int
  data_length : Nat
  segment_length : Nat
  relocations : List RelocationEntry
  symbols : SymbolList
  deriving DecidableEq, Repr

/-- Replay one recorded `add_segment` call. -/
def applyAddSegment (fi : FileInfo) (c : AddSegmentCall) : FileInfo :=
  fi.add_segment c.segment_type c.file_offset c.data_length c.segment_length
    c.relocations c.symbols

/-- Replay an arbitrary sequence of `add_segment` calls against a freshly
constructed `FileInfo`. -/
def buildFileInfo (file_name : String) (options : Option LoaderOptions)
    (calls : List AddSegmentCall) : FileInfo :=
  calls.foldl applyAddSegment (FileInfo.make file_name options)

/-- The configured load address of a load attempt: the options' load address
for a binary file, zero otherwise. -/
def configuredLoadAddress (options : Option LoaderOptions) : Nat :=
  match options with
  | some o => if o.is_binary_file then o.load_address else 0
  | none => 0

/-- The address-contiguity invariant of a segment list: the first segment (if
any) sits at the load address and every later segment starts where its
predecessor ends. -/
def chainedFrom (la : Nat) (segs : List Segment) : Prop :=
  (∀ s, segs[0]? = some s → s.address = la) ∧
  ∀ n s s2, segs[n]? = some s → segs[n + 1]? = some s2 →
    s2.address = s.address + s.length

/-- `add_segment` leaves the load address untouched. -/
theorem add_segment_load_address (fi : FileInfo) (c : AddSegmentCall) :
    (applyAddSegment fi c).load_address = fi.load_address := rfl

/-- `add_segment` preserves the address-contiguity invariant: the appended
segment is placed at the running total. -/
theorem add_segment_chained (la : Nat) (fi : FileInfo) (c : AddSegmentCall)
    (hla : fi.load_address = la) (h : chainedFrom la fi.segments) :
    chainedFrom la (applyAddSegment fi c).segments := by
  obtain ⟨h0, hn⟩ := h
  have hsegs : (applyAddSegment fi c).segments = fi.segments ++
      [{ type := c.segment_type, file_offset := c.file_offset,
         data_length := c.data_length, length := c.segment_length,
         address :=
           match fi.segments.getLast? with
           | none => fi.load_address
           | some prev => prev.address + prev.length,
         cached_data := none }] := rfl
  constructor
  · intro s hs
    rcases hsegs2 : fi.segments with _ | ⟨hd, tl⟩
    · rw [hsegs, hsegs2] at hs
      simp at hs
      rw [← hs]
      exact hla
    · rw [hsegs] at hs
      rw [List.getElem?_append_left (by rw [hsegs2]; simp)] at hs
      exact h0 s hs
  · intro n s s2 hs hs2
    rw [hsegs] at hs hs2
    rcases Nat.lt_or_ge (n + 1) fi.segments.length with hlt | hge
    · rw [List.getElem?_append_left (by omega)] at hs
      rw [List.getElem?_append_left hlt] at hs2
      exact hn n s s2 hs hs2
    · rcases Nat.lt_or_ge n fi.segments.length with hlt2 | hge2
      · have hn1 : n + 1 = fi.segments.length := by omega
        rw [List.getElem?_append_left hlt2] at hs
        rw [List.getElem?_append_right (by omega)] at hs2
        rw [hn1] at hs2
        simp at hs2
        have hlast : fi.segments.getLast? = some s := by
          rw [List.getLast?_eq_getElem? _]
          have heq : fi.segments.length - 1 = n := by omega
          rw [heq, hs]
        rw [← hs2]
        simp [hlast]
      · rw [List.getElem?_append_right (by omega)] at hs
        rcases Nat.lt_or_ge (n - fi.segments.length) 1 with h1 | h1
        · have hn2 : n = fi.segments.length := by omega
          rw [List.getElem?_append_right (by omega)] at hs2
          have heq : n + 1 - fi.segments.length = 1 := by omega
          rw [heq] at hs2
          simp at hs2
        · simp [List.getElem?_eq_none, h1] at hs

/-- Replaying any call sequence preserves the invariant and the load
address. -/
theorem foldl_add_segment_chained (calls : List AddSegmentCall) (la : Nat) :
    ∀ fi : FileInfo, fi.load_address = la → chainedFrom la fi.segments →
      (calls.foldl applyAddSegment fi).load_address = la ∧
      chainedFrom la (calls.foldl applyAddSegment fi).segments := by
  induction calls with
  | nil =>
    intro fi hla h
    exact ⟨hla, h⟩
  | cons c cs ih =>
    intro fi hla h
    rw [List.foldl_cons]
    exact ih (applyAddSegment fi c)
      ((add_segment_load_address fi c).trans hla)
      (add_segment_chained la fi c hla h)

/-- Claim C3: replaying any sequence of `add_segment` calls against a fresh
`FileInfo`, the first segment's address is the configured load address (the
options' load address for a binary file, zero otherwise) and every subsequent
segment's address is the previous segment's address plus its length. -/
theorem claim_C3 (file_name : String) (options : Option LoaderOptions)
    (calls : List AddSegmentCall) :
    (∀ s, (buildFileInfo file_name options calls).segments[0]? = some s →
      s.address = configuredLoadAddress options) ∧
    ∀ n s s2, (buildFileInfo file_name options calls).segments[n]? = some s →
      (buildFileInfo file_name options calls).segments[n + 1]? = some s2 →
      s2.address = s.address + s.length := by
  have hmk : (FileInfo.make file_name options).load_address =
      configuredLoadAddress options := by
    rcases options with _ | o
    · rfl
    · rfl
  have h := foldl_add_segment_chained calls (configuredLoadAddress options)
    (FileInfo.make file_name options) hmk
    ⟨by intro s hs; simp [FileInfo.make] at hs, by intro n s s2 hs hs2; simp [FileInfo.make] at hs⟩
  exact h.2

/-- Witness for claim C3: two segments of lengths ten and six replayed onto a
binary-options `FileInfo` with load address 4096 put the second segment at
4106 — exactly the first segment's address plus its length. -/
theorem claim_C3_witness :
    ({ type := 2, file_offset := 10, data_length := 6, length := 6,
       address := 4106, cached_data := none } : Segment).address =
      ({ type := 1, file_offset := 0, data_length := 10, length := 10,
         address := 4096, cached_data := none } : Segment).address +
      ({ type := 1, file_offset := 0, data_length := 10, length := 10,
         address := 4096, cached_data := none } : Segment).length :=
  (claim_C3 "demo.bin"
    (some { is_binary_file := true, processor_id := PROCESSOR_M68000,
            load_address := 4096, entrypoint_segment_id := 0, entrypoint_offset := 0 })
    [{ segment_type := 1, file_offset := 0, data_length := 10, segment_length := 10,
       relocations := [], symbols := [] },
     { segment_type := 2, file_offset := 10, data_length := 6, segment_length := 6,
       relocations := [], symbols := [] }]).2 0
    { type := 1, file_offset := 0, data_length := 10, length := 10,
      address := 4096, cached_data := none }
    { type := 2, file_offset := 10, data_length := 6, length := 6,
      address := 4106, cached_data := none }
    (by decide) (by decide)

/-- The buffer a file-backed `cache_segment_data` call stores: the byte slice
at the seek position exactly when the full `data_length` is available, `None`
otherwise (the logged-error path). -/
def cacheReadResult (input : List Nat) (pos file_length : Nat) : Option (List Nat) :=
  if (pySlice input pos (pos + file_length)).length = file_length
  then some (pySlice input pos (pos + file_length))
  else none

/-- Computation of `cache_segment_data` on a file-backed segment. -/
theorem cache_segment_data_file_backed (input : List Nat) (segs : List Segment)
    (j base k : Nat) (segj : Segment) (hj : segs[j]? = some segj)
    (hk : segj.file_offset = (k : Int)) :
    cache_segment_data input segs j base =
      .ok (segs.set j { segj with
        cached_data := cacheReadResult input (base + k) segj.data_length }) := by
  have hne : segj.file_offset ≠ -1 := by
    rw [hk]
    omega
  have hpos : ¬ ((base : Int) + segj.file_offset < 0) := by
    rw [hk]
    omega
  have htoNat : ((base : Int) + segj.file_offset).toNat = base + k := by
    rw [hk]
    omega
  simp only [cache_segment_data, hj, hne, if_true, hpos, if_false, htoNat, ite_not,
    cacheReadResult]

/-- Computation of `cache_segment_data` on a segment without file backing. -/
theorem cache_segment_data_no_backing (input : List Nat) (segs : List Segment)
    (j base : Nat) (segj : Segment) (hj : segs[j]? = some segj)
    (hbss : segj.file_offset = -1) :
    cache_segment_data input segs j base =
      .ok (segs.set j { segj with cached_data := none }) := by
  simp [cache_segment_data, hj, hbss]

/-- A natural number cast to `Int` is never the `-1` sentinel. -/
theorem natCast_ne_negOne (k : Nat) : ((k : Int) ≠ -1) := by omega

/-- The caching driver aborts with `TruncatedRead` whenever some scheduled
segment is file-backed but the input holds fewer than `data_length` bytes at
its seek position. -/
theorem cacheAll_truncated_go (input : List Nat) (base : Nat) :
    ∀ (idxs : List Nat) (segs : List Segment),
      (∀ s ∈ segs, s.file_offset = -1 ∨ ∃ k : Nat, s.file_offset = (k : Int)) →
      (∀ j ∈ idxs, j < segs.length) →
      ∀ i, i ∈ idxs → ∀ seg, segs[i]? = some seg → ∀ off : Nat,
        seg.file_offset = (off : Int) →
        input.length - (base + off) < seg.data_length →
        cacheAllSegmentData input base segs idxs = .error .truncatedRead := by
  intro idxs
  induction idxs with
  | nil =>
    intro segs _ _ i hi
    simp at hi
  | cons j rest ih =>
    intro segs hwf hbound i hi seg hseg off hoff hshort
    have hj : j < segs.length := hbound j (by simp)
    obtain ⟨segj, hsegj⟩ : ∃ x, segs[j]? = some x := by
      rw [List.getElem?_eq_getElem hj]
      exact ⟨_, rfl⟩
    rcases hwf segj (List.getElem?_mem hsegj) with hbss | ⟨k, hk⟩
    · -- segment without file backing: its check passes, recurse
      have hij : i ≠ j := by
        intro he
        have hss : some segj = some seg := by
          rw [← hsegj, ← he]
          exact hseg
        have h2 : segj = seg := by injection hss
        rw [h2, hoff] at hbss
        exact natCast_ne_negOne off hbss
      have hi2 : i ∈ rest := by
        rcases hi with _ | h
        · exact absurd rfl hij
        · assumption
      have hc := cache_segment_data_no_backing input segs j base segj hsegj hbss
      simp only [cacheAllSegmentData, hc]
      have hget : (segs.set j { segj with cached_data := none })[j]? =
          some { segj with cached_data := none } := List.getElem?_set_self (by omega)
      simp only [hget]
      rw [if_neg (by simp [hbss])]
      exact ih (segs.set j { segj with cached_data := none })
        (by
          intro s hs
          rcases List.mem_or_eq_of_mem_set hs with h2 | h2
          · exact hwf s h2
          · subst h2
            exact Or.inl hbss)
        (by
          intro j2 hj2
          rw [List.length_set]
          exact hbound j2 (by simp [hj2]))
        i hi2 seg (by rw [List.getElem?_set_ne (Ne.symm hij)]; exact hseg) off hoff hshort
    · -- file-backed segment
      have hc := cache_segment_data_file_backed input segs j base k segj hsegj hk
      by_cases hij : i = j
      · -- the short segment itself is scheduled first: the check trips now
        have hss : some segj = some seg := by
          rw [← hsegj, ← hij]
          exact hseg
        have h2 : segj = seg := by injection hss
        have hko : k = off := by
          rw [h2, hoff] at hk
          omega
        have hshort2 : (pySlice input (base + k) (base + k + segj.data_length)).length ≠
            segj.data_length := by
          simp only [pySlice, List.length_take, List.length_drop]
          rw [h2, hko]
          omega
        have hcrr : cacheReadResult input (base + k) segj.data_length = none := by
          rw [cacheReadResult, if_neg hshort2]
        simp only [cacheAllSegmentData, hc, hcrr]
        have hget : (segs.set j { segj with cached_data := none })[j]? =
            some { segj with cached_data := none } := List.getElem?_set_self (by omega)
        simp only [hget]
        rw [if_pos (by simp [hk, natCast_ne_negOne])]
      · -- another segment was scheduled first: either it is itself truncated
        -- (reported immediately) or it caches fine and we recurse
        have hi2 : i ∈ rest := by
          rcases hi with _ | h
          · exact absurd rfl hij
          · assumption
        by_cases hfit :
            (pySlice input (base + k) (base + k + segj.data_length)).length =
              segj.data_length
        · have hcrr : cacheReadResult input (base + k) segj.data_length =
              some (pySlice input (base + k) (base + k + segj.data_length)) := by
            rw [cacheReadResult, if_pos hfit]
          simp only [cacheAllSegmentData, hc, hcrr]
          have hget : (segs.set j
                { segj with
                  cached_data :=
                    some (pySlice input (base + k) (base + k + segj.data_length)) })[j]? =
              some
                { segj with
                  cached_data :=
                    some (pySlice input (base + k) (base + k + segj.data_length)) } :=
            List.getElem?_set_self (by omega)
          simp only [hget]
          rw [if_neg (by simp)]
          exact ih (segs.set j
              { segj with
                cached_data :=
                  some (pySlice input (base + k) (base + k + segj.data_length)) })
            (by
              intro s hs
              rcases List.mem_or_eq_of_mem_set hs with h2 | h2
              · exact hwf s h2
              · subst h2
                exact Or.inr ⟨k, hk⟩)
            (by
              intro j2 hj2
              rw [List.length_set]
              exact hbound j2 (by simp [hj2]))
            i hi2 seg (by rw [List.getElem?_set_ne (Ne.symm hij)]; exact hseg) off hoff hshort
        · have hcrr : cacheReadResult input (base + k) segj.data_length = none := by
            rw [cacheReadResult, if_neg hfit]
          simp only [cacheAllSegmentData, hc, hcrr]
          have hget : (segs.set j { segj with cached_data := none })[j]? =
              some { segj with cached_data := none } := List.getElem?_set_self (by omega)
          simp only [hget]
          rw [if_pos (by simp [hk, natCast_ne_negOne])]

/-- Claim C6: for a file-backed segment with the full `data_length` available,
`cache_segment_data` seeks to `base_file_offset + file_offset` and stores
exactly the `data_length` bytes found there in the segment's cache; and
whenever fewer than `data_length` bytes are available for some file-backed
segment, the caching pass over all segments is a hard `TruncatedRead` load
error — the program is never exposed as loaded with a partial cache. -/
theorem claim_C6 :
    (∀ (input : List Nat) (segments : List Segment) (segment_id base off : Nat)
        (seg : Segment),
      segments[segment_id]? = some seg → seg.file_offset = (off : Int) →
      base + off + seg.data_length ≤ input.length →
      cache_segment_data input segments segment_id base =
        .ok (segments.set segment_id
          { seg with
            cached_data :=
              some (pySlice input (base + off) (base + off + seg.data_length)) }) ∧
      (pySlice input (base + off) (base + off + seg.data_length)).length =
        seg.data_length) ∧
    (∀ (input : List Nat) (segments : List Segment) (base i off : Nat) (seg : Segment),
      (∀ s ∈ segments, s.file_offset = -1 ∨ ∃ k : Nat, s.file_offset = (k : Int)) →
      segments[i]? = some seg → seg.file_offset = (off : Int) →
      input.length - (base + off) < seg.data_length →
      loadCacheSegments input segments base = .error .truncatedRead) := by
  constructor
  · intro input segments segment_id base off seg hseg hoff hle
    have hlen : (pySlice input (base + off) (base + off + seg.data_length)).length =
        seg.data_length := by
      simp only [pySlice, List.length_take, List.length_drop]
      omega
    refine ⟨?_, hlen⟩
    have hc := cache_segment_data_file_backed input segments segment_id base off seg hseg hoff
    rw [hc, cacheReadResult, if_pos hlen]
  · intro input segments base i off seg hwf hseg hoff hshort
    have hii : i < segments.length := by
      by_contra hcon
      rw [List.getElem?_eq_none (by omega)] at hseg
      cases hseg
    rw [loadCacheSegments]
    exact cacheAll_truncated_go input base (List.range segments.length) segments hwf
      (by
        intro j hj
        exact List.mem_range.mp hj)
      i (List.mem_range.mpr hii) seg hseg off hoff hshort

/-- Witness for claim C6: caching a two-byte segment at file offset one with
base offset one stores bytes three and four; a nine-byte segment against a
three-byte file makes the caching pass abort with `TruncatedRead`. -/
theorem claim_C6_witness :
    cache_segment_data [1, 2, 3, 4, 5]
      [{ type := 1, file_offset := 1, data_length := 2, length := 2, address := 0,
         cached_data := none }] 0 1 =
      .ok [{ type := 1, file_offset := 1, data_length := 2, length := 2, address := 0,
             cached_data := some [3, 4] }] ∧
    loadCacheSegments [1, 2, 3]
      [{ type := 1, file_offset := 0, data_length := 9, length := 9, address := 0,
         cached_data := none }] 0 = .error .truncatedRead := by
  constructor
  · have h := (claim_C6.1 [1, 2, 3, 4, 5]
      [{ type := 1, file_offset := 1, data_length := 2, length := 2, address := 0,
         cached_data := none }] 0 1 1
      { type := 1, file_offset := 1, data_length := 2, length := 2, address := 0,
        cached_data := none } rfl rfl (by norm_num)).1
    rw [h]
    rfl
  · exact claim_C6.2 [1, 2, 3]
      [{ type := 1, file_offset := 0, data_length := 9, length := 9, address := 0,
         cached_data := none }] 0 0 0
      { type := 1, file_offset := 0, data_length := 9, length := 9, address := 0,
        cached_data := none }
      (by
        intro s hs
        simp only [List.mem_singleton] at hs
        subst hs
        exact Or.inr ⟨0, rfl⟩)
      rfl rfl (by norm_num)

/-- An in-bounds slice assignment preserves the buffer length. -/
theorem spliceAssign_length (l rep : List Nat) (off : Nat)
    (h : off + rep.length ≤ l.length) :
    (spliceAssign l off rep).length = l.length := by
  simp only [spliceAssign, List.length_append, List.length_take, List.length_drop]
  omega

/-- A slice wholly before the written region is unchanged by slice
assignment. -/
theorem pySlice_spliceAssign_left (l rep : List Nat) (off a b : Nat)
    (hab : a ≤ b) (hb : b ≤ off) (hoff : off ≤ l.length) :
    pySlice (spliceAssign l off rep) a b = pySlice l a b := by
  simp only [pySlice, spliceAssign]
  rw [List.drop_append_eq_append_drop, List.drop_append_eq_append_drop]
  rw [List.take_append_of_le_length
      (by simp only [List.length_append, List.length_drop, List.length_take]; omega)]
  rw [List.take_append_of_le_length
      (by simp only [List.length_drop, List.length_take]; omega)]
  rw [List.drop_take, List.take_take]
  congr 1
  omega

/-- A slice wholly after the written region is unchanged by slice
assignment. -/
theorem pySlice_spliceAssign_right (l rep : List Nat) (off a b : Nat)
    (hsep : off + rep.length ≤ a) (hoff : off ≤ l.length) :
    pySlice (spliceAssign l off rep) a b = pySlice l a b := by
  have hX : (l.take off ++ rep).length = off + rep.length := by
    simp only [List.length_append, List.length_take]
    omega
  simp only [pySlice, spliceAssign]
  rw [List.drop_append_eq_append_drop]
  rw [List.drop_eq_nil_of_le (by omega), List.nil_append, hX, List.drop_drop]
  congr 2
  omega

/-- Reading back exactly the written region of a slice assignment returns the
written bytes. -/
theorem pySlice_spliceAssign_self (l rep : List Nat) (off : Nat)
    (h : off + rep.length ≤ l.length) :
    pySlice (spliceAssign l off rep) off (off + rep.length) = rep := by
  have h1 : (l.take off).drop off = [] := by
    apply List.drop_eq_nil_of_le
    simp only [List.length_take]
    omega
  have hlen2 : (l.take off).length = off := by
    simp only [List.length_take]
    omega
  simp only [pySlice, spliceAssign]
  rw [List.drop_append_eq_append_drop, List.drop_append_eq_append_drop]
  rw [h1, List.nil_append, hlen2, Nat.sub_self, List.drop_zero]
  have hsub : off + rep.length - off = rep.length := by omega
  rw [hsub]
  rw [List.take_append_of_le_length (le_refl rep.length), List.take_length]

/-- A full-buffer slice from position zero is the identity. -/
theorem pySlice_zero (l : List Nat) (n : Nat) (h : l.length ≤ n) :
    pySlice l 0 n = l := by
  simp [pySlice, List.take_of_length_le h]

/-- Encoding a 32-bit value and decoding the bytes with the same codec
returns the value: the four packed bytes exist, have length four, and decode
back. -/
theorem uint32_roundtrip (dt : DataTypes) (v : Nat) (hv : v < 2 ^ 32) :
    ∃ packed, dt.uint32_value_as_string v = .ok packed ∧ packed.length = 4 ∧
      dt.uint32 packed = .ok v := by
  have h24 : (2 : Nat) ^ 24 = 16777216 := by norm_num
  have h16 : (2 : Nat) ^ 16 = 65536 := by norm_num
  have h8 : (2 : Nat) ^ 8 = 256 := by norm_num
  have h32 : (2 : Nat) ^ 32 = 4294967296 := by norm_num
  by_cases hbe : dt.endian_id = Endian.BIG
  · refine ⟨[v / 2 ^ 24 % 256, v / 2 ^ 16 % 256, v / 2 ^ 8 % 256, v % 256], ?_, rfl, ?_⟩
    · simp only [DataTypes.uint32_value_as_string, hbe, if_true, structPack32, if_pos hv]
    · simp only [DataTypes.uint32, hbe, if_true, structUnpack32, if_true,
        Except.ok.injEq, beLong]
      rw [h24, h16, h8] at *
      rw [h32] at hv
      omega
  · refine ⟨[v % 256, v / 2 ^ 8 % 256, v / 2 ^ 16 % 256, v / 2 ^ 24 % 256], ?_, rfl, ?_⟩
    · simp only [DataTypes.uint32_value_as_string, hbe, if_false, structPack32, if_pos hv,
        Bool.false_eq_true]
    · simp only [DataTypes.uint32, hbe, if_false, structUnpack32,
        Bool.false_eq_true, Except.ok.injEq, beLong]
      rw [h24, h16, h8] at *
      rw [h32] at hv
      omega

/-- The value just recorded under a key is found at that key. -/
theorem mem_relocLookup_setdefaultAdd_self (m : List (Nat × List Nat)) (k v : Nat) :
    v ∈ relocLookup (setdefaultAdd m k v) k := by
  induction m with
  | nil => simp [setdefaultAdd, relocLookup]
  | cons p rest ih =>
    obtain ⟨k2, vs⟩ := p
    by_cases hk : k2 = k
    · simp only [setdefaultAdd, if_pos hk, relocLookup, if_pos hk]
      split
      · assumption
      · simp
    · simp only [setdefaultAdd, if_neg hk, relocLookup, if_neg hk]
      exact ih

/-- Recording a value under one key never removes values found under any
key. -/
theorem mem_relocLookup_setdefaultAdd_preserve (m : List (Nat × List Nat))
    (k k2 v x : Nat) (h : x ∈ relocLookup m k) :
    x ∈ relocLookup (setdefaultAdd m k2 v) k := by
  induction m with
  | nil => simp [relocLookup] at h
  | cons p rest ih =>
    obtain ⟨k3, vs⟩ := p
    by_cases h32 : k3 = k2
    · simp only [setdefaultAdd, if_pos h32, relocLookup]
      by_cases h3k : k3 = k
      · rw [if_pos h3k]
        simp only [relocLookup, if_pos h3k] at h
        split
        · exact h
        · simp [h]
      · rw [if_neg h3k]
        simpa [relocLookup, if_neg h3k] using h
    · simp only [setdefaultAdd, if_neg h32, relocLookup]
      by_cases h3k : k3 = k
      · rw [if_pos h3k]
        simpa [relocLookup, if_pos h3k] using h
      · rw [if_neg h3k]
        simp only [relocLookup, if_neg h3k] at h
        exact ih h

/-- The value just added to a set is a member. -/
theorem mem_setAdd_self (s : List Nat) (v : Nat) : v ∈ setAdd s v := by
  unfold setAdd
  split
  · assumption
  · simp

/-- Adding to a set never removes members. -/
theorem mem_setAdd_preserve (s : List Nat) (v x : Nat) (h : x ∈ s) :
    x ∈ setAdd s v := by
  unfold setAdd
  split
  · exact h
  · simp [h]

/-- A Python slice never exceeds its nominal width. -/
theorem pySlice_length_le (l : List Nat) (a b : Nat) :
    (pySlice l a b).length ≤ b - a := by
  simp only [pySlice, List.length_take]
  omega

/-- Claim C2: one run of `relocate_segment_data` on a two-segment program
whose first segment (address `L`, buffer `d`) carries the relocation table
`{(1, [off1, off2])}` against the second segment (address `A`), where the
32-bit values stored at `off1`/`off2` decode to `v1`/`v2`, rewrites the four
bytes at `off1` and `off2` so that they decode (in the file's endianness) to
`v1 + A` and `v2 + A`, records the referencing absolute address `L + off1`
under `relocated_addresses[v1 + A]`, and adds both referencing absolute
addresses to the relocatable-address set. -/
theorem claim_C2 (dt : DataTypes) (t0 t1 : Nat) (fo0 fo1 : Int)
    (dl0 dl1 len0 len1 L A : Nat) (d : List Nat) (cd1 : Option (List Nat))
    (off1 off2 v1 v2 : Nat)
    (h12 : off1 + 4 ≤ off2) (h2len : off2 + 4 ≤ d.length)
    (hv1 : dt.uint32 (pySlice d off1 (off1 + 4)) = .ok v1)
    (hv2 : dt.uint32 (pySlice d off2 (off2 + 4)) = .ok v2)
    (hb1 : v1 + A < 2 ^ 32) (hb2 : v2 + A < 2 ^ 32) :
    ∃ (d2 : List Nat) (maps2 : RelocMaps),
      relocate_segment_data dt
        [{ type := t0, file_offset := fo0, data_length := dl0, length := len0,
           address := L, cached_data := some d },
         { type := t1, file_offset := fo1, data_length := dl1, length := len1,
           address := A, cached_data := cd1 }]
        [[(1, [off1, off2])], []]
        { relocated_addresses := [], relocatable_addresses := [] } =
        .ok ([{ type := t0, file_offset := fo0, data_length := dl0, length := len0,
                address := L, cached_data := some d2 },
              { type := t1, file_offset := fo1, data_length := dl1, length := len1,
                address := A, cached_data := cd1 }], maps2) ∧
      d2.length = d.length ∧
      dt.uint32 (pySlice d2 off1 (off1 + 4)) = .ok (v1 + A) ∧
      dt.uint32 (pySlice d2 off2 (off2 + 4)) = .ok (v2 + A) ∧
      (L + off1) ∈ relocLookup maps2.relocated_addresses (v1 + A) ∧
      (L + off1) ∈ maps2.relocatable_addresses ∧
      (L + off2) ∈ maps2.relocatable_addresses := by
  obtain ⟨p1, hp1, hp1len, hp1dec⟩ := uint32_roundtrip dt (v1 + A) hb1
  obtain ⟨p2, hp2, hp2len, hp2dec⟩ := uint32_roundtrip dt (v2 + A) hb2
  have huv1 : dt.uint32_value (pySlice d off1 (off1 + 4)) 0 = .ok (some v1) := by
    unfold DataTypes.uint32_value
    rw [pySlice_zero _ _ (by have := pySlice_length_le d off1 (off1 + 4); omega), hv1]
  have hcond1 : off1 + p1.length ≤ d.length := by
    rw [hp1len]
    omega
  have hd1len : (spliceAssign d off1 p1).length = d.length :=
    spliceAssign_length d p1 off1 hcond1
  have hslice2eq : pySlice (spliceAssign d off1 p1) off2 (off2 + 4) =
      pySlice d off2 (off2 + 4) :=
    pySlice_spliceAssign_right d p1 off1 off2 (off2 + 4) (by omega) (by omega)
  have huv2 : dt.uint32_value (pySlice (spliceAssign d off1 p1) off2 (off2 + 4)) 0 =
      .ok (some v2) := by
    unfold DataTypes.uint32_value
    rw [pySlice_zero _ _ (by
      have := pySlice_length_le (spliceAssign d off1 p1) off2 (off2 + 4)
      omega)]
    rw [hslice2eq, hv2]
  have hcond2 : off2 + p2.length ≤ (spliceAssign d off1 p1).length := by
    rw [hp2len, hd1len]
    omega
  have hrun : relocOffsets dt L A (some d)
      { relocated_addresses := [], relocatable_addresses := [] } [off1, off2] =
      .ok (some (spliceAssign (spliceAssign d off1 p1) off2 p2),
        { relocated_addresses :=
            setdefaultAdd (setdefaultAdd [] (v1 + A) (L + off1)) (v2 + A) (L + off2),
          relocatable_addresses := setAdd (setAdd [] (L + off1)) (L + off2) }) := by
    simp only [relocOffsets, huv1, hp1, huv2, hp2, if_pos hcond1, if_pos hcond2]
  refine ⟨spliceAssign (spliceAssign d off1 p1) off2 p2,
    { relocated_addresses :=
        setdefaultAdd (setdefaultAdd [] (v1 + A) (L + off1)) (v2 + A) (L + off2),
      relocatable_addresses := setAdd (setAdd [] (L + off1)) (L + off2) },
    ?_, ?_, ?_, ?_, ?_, ?_, ?_⟩
  · have hentries : relocEntries dt
        [{ type := t0, file_offset := fo0, data_length := dl0, length := len0,
           address := L, cached_data := some d },
         { type := t1, file_offset := fo1, data_length := dl1, length := len1,
           address := A, cached_data := cd1 }] L (some d)
        { relocated_addresses := [], relocatable_addresses := [] }
        [(1, [off1, off2])] =
        .ok (some (spliceAssign (spliceAssign d off1 p1) off2 p2),
          { relocated_addresses :=
              setdefaultAdd (setdefaultAdd [] (v1 + A) (L + off1)) (v2 + A) (L + off2),
            relocatable_addresses := setAdd (setAdd [] (L + off1)) (L + off2) }) := by
      have haddr : get_segment_address
          [{ type := t0, file_offset := fo0, data_length := dl0, length := len0,
             address := L, cached_data := some d },
           { type := t1, file_offset := fo1, data_length := dl1, length := len1,
             address := A, cached_data := cd1 }] 1 = some A := rfl
      simp only [relocEntries, haddr, hrun]
    have hone0 : relocateOneSegment dt [[(1, [off1, off2])], []]
        [{ type := t0, file_offset := fo0, data_length := dl0, length := len0,
           address := L, cached_data := some d },
         { type := t1, file_offset := fo1, data_length := dl1, length := len1,
           address := A, cached_data := cd1 }]
        { relocated_addresses := [], relocatable_addresses := [] } 0 =
        .ok ([{ type := t0, file_offset := fo0, data_length := dl0, length := len0,
                address := L,
                cached_data := some (spliceAssign (spliceAssign d off1 p1) off2 p2) },
              { type := t1, file_offset := fo1, data_length := dl1, length := len1,
                address := A, cached_data := cd1 }],
          { relocated_addresses :=
              setdefaultAdd (setdefaultAdd [] (v1 + A) (L + off1)) (v2 + A) (L + off2),
            relocatable_addresses := setAdd (setAdd [] (L + off1)) (L + off2) }) := by
      simp only [relocateOneSegment, List.getElem?_cons_zero, hentries, List.set_cons_zero]
    have hone1 : relocateOneSegment dt [[(1, [off1, off2])], []]
        [{ type := t0, file_offset := fo0, data_length := dl0, length := len0,
           address := L,
           cached_data := some (spliceAssign (spliceAssign d off1 p1) off2 p2) },
         { type := t1, file_offset := fo1, data_length := dl1, length := len1,
           address := A, cached_data := cd1 }]
        { relocated_addresses :=
            setdefaultAdd (setdefaultAdd [] (v1 + A) (L + off1)) (v2 + A) (L + off2),
          relocatable_addresses := setAdd (setAdd [] (L + off1)) (L + off2) } 1 =
        .ok ([{ type := t0, file_offset := fo0, data_length := dl0, length := len0,
                address := L,
                cached_data := some (spliceAssign (spliceAssign d off1 p1) off2 p2) },
              { type := t1, file_offset := fo1, data_length := dl1, length := len1,
                address := A, cached_data := cd1 }],
          { relocated_addresses :=
              setdefaultAdd (setdefaultAdd [] (v1 + A) (L + off1)) (v2 + A) (L + off2),
            relocatable_addresses := setAdd (setAdd [] (L + off1)) (L + off2) }) := by
      simp only [relocateOneSegment, List.getElem?_cons_succ, List.getElem?_cons_zero,
        relocEntries, List.set_cons_succ, List.set_cons_zero]
    have hr2 : List.range
        ([{ type := t0, file_offset := fo0, data_length := dl0, length := len0,
            address := L, cached_data := some d },
          { type := t1, file_offset := fo1, data_length := dl1, length := len1,
            address := A, cached_data := cd1 }] : List Segment).length = [0, 1] := rfl
    simp only [relocate_segment_data, hr2, List.foldl_cons, List.foldl_nil, hone0, hone1]
  · rw [spliceAssign_length _ _ _ hcond2, hd1len]
  · have hs : pySlice (spliceAssign (spliceAssign d off1 p1) off2 p2) off1 (off1 + 4) =
        p1 := by
      rw [pySlice_spliceAssign_left _ _ _ _ _ (by omega) (by omega) (by rw [hd1len]; omega)]
      rw [show off1 + 4 = off1 + p1.length by rw [hp1len]]
      exact pySlice_spliceAssign_self d p1 off1 hcond1
    rw [hs, hp1dec]
  · have hs : pySlice (spliceAssign (spliceAssign d off1 p1) off2 p2) off2 (off2 + 4) =
        p2 := by
      rw [show off2 + 4 = off2 + p2.length by rw [hp2len]]
      exact pySlice_spliceAssign_self (spliceAssign d off1 p1) p2 off2 hcond2
    rw [hs, hp2dec]
  · exact mem_relocLookup_setdefaultAdd_preserve _ _ _ _ _
      (mem_relocLookup_setdefaultAdd_self [] (v1 + A) (L + off1))
  · exact mem_setAdd_preserve _ _ _ (mem_setAdd_self [] (L + off1))
  · exact mem_setAdd_self _ (L + off2)

/-- Witness for claim C2: a big-endian two-segment program with stored values
one and two at offsets zero and four against a target segment at address 100;
after the single relocation pass the fields decode to 101 and 102 and the
referencing addresses 10 and 14 are recorded. -/
theorem claim_C2_witness :
    ∃ (d2 : List Nat) (maps2 : RelocMaps),
      relocate_segment_data ⟨Endian.BIG⟩
        [{ type := 1, file_offset := 0, data_length := 8, length := 8,
           address := 10, cached_data := some [0, 0, 0, 1, 0, 0, 0, 2] },
         { type := 2, file_offset := -1, data_length := 0, length := 4,
           address := 100, cached_data := none }]
        [[(1, [0, 4])], []]
        { relocated_addresses := [], relocatable_addresses := [] } =
        .ok ([{ type := 1, file_offset := 0, data_length := 8, length := 8,
                address := 10, cached_data := some d2 },
              { type := 2, file_offset := -1, data_length := 0, length := 4,
                address := 100, cached_data := none }], maps2) ∧
      d2.length = ([0, 0, 0, 1, 0, 0, 0, 2] : List Nat).length ∧
      DataTypes.uint32 ⟨Endian.BIG⟩ (pySlice d2 0 (0 + 4)) = .ok (1 + 100) ∧
      DataTypes.uint32 ⟨Endian.BIG⟩ (pySlice d2 4 (4 + 4)) = .ok (2 + 100) ∧
      (10 + 0) ∈ relocLookup maps2.relocated_addresses (1 + 100) ∧
      (10 + 0) ∈ maps2.relocatable_addresses ∧
      (10 + 4) ∈ maps2.relocatable_addresses :=
  claim_C2 ⟨Endian.BIG⟩ 1 2 0 (-1) 8 0 8 4 10 100 [0, 0, 0, 1, 0, 0, 0, 2] none 0 4 1 2
    (by norm_num) (by norm_num) (by decide) (by decide) (by norm_num) (by norm_num)
